import Mathlib

/-!
Verification of the quantum-hacks repository: a React frontend for a
"quantum sudoku" game backed by an HTTP engine.  The frontend source
(`App.jsx`, `SudokuBoard.jsx`, `InfoPanel.jsx`) is embedded shallowly:
cells as an optional fixed value plus a possibilities mapping, the event
handlers as pure state-transition functions that also report the HTTP
request they would send, and the response handlers as state updates.
The backend constraint-propagation engine is absent from the repository
and is modelled from the specification where a claim requires it.
-/

/-- A cell as delivered by `GET /board` and consumed by the frontend:
a JS object that either has a defined `value` field (Fixed cell) or a
`possibilities` object mapping candidate values to probabilities
(Superposition cell).  `value === undefined` is modelled as `none`; the
`possibilities` JS object is modelled as an association list whose keys
are the candidate values. -/
structure ClientCell where
  value : Option Nat
  possibilities : List (Nat × Nat)
deriving DecidableEq

/-- The board JSON: a 9-element array of 9-element arrays of cells
(modelled as nested lists; the handlers index it like `board[row][col]`). -/
abbrev ClientBoard := List (List ClientCell)

/-- `board[row][col]` as a partial lookup (JS yields `undefined` out of range). -/
def cellAt (b : ClientBoard) (r c : Nat) : Option ClientCell :=
  (b.get? r).bind fun row => row.get? c

/-- The ordering on `[number, probability]` pairs used by the comparator
`(a, b) => a[0] - b[0]` in `SudokuBoard.jsx`: compare the numeric value. -/
def byKey (a b : Nat × Nat) : Prop := a.1 ≤ b.1

instance : DecidableRel byKey := fun a b => Nat.decLe a.1 b.1

instance : IsTotal (Nat × Nat) byKey := ⟨fun a b => Nat.le_total a.1 b.1⟩

instance : IsTrans (Nat × Nat) byKey := ⟨fun _ _ _ => Nat.le_trans⟩

/-- `sortPossibilities` from `SudokuBoard.jsx`: turn the possibilities
object into `[number, probability]` pairs and sort by number.  The JS
comparison sort is modelled by insertion sort over `byKey`; since keys of
a JS object are unique, any comparison sort produces the same output. -/
def sortPossibilities (poss : List (Nat × Nat)) : List (Nat × Nat) :=
  List.insertionSort byKey poss

/-- `getProbabilityColor` from `SudokuBoard.jsx` uses `Math.round`, which
rounds a (non-negative) real to the nearest integer, half up. -/
def jsRound (x : ℚ) : ℤ := ⌊x + 1 / 2⌋

/-- `getProbabilityColor` from `SudokuBoard.jsx`: probability `p` in
[0, 100] becomes `rgb(red, green, blue)` with
`red = blue = Math.round(255 * (1 - p / 100))` and `green = 255`. -/
def getProbabilityColor (probability : ℚ) : ℤ × ℤ × ℤ :=
  let normalizedProb := probability / 100
  let red := jsRound (255 * (1 - normalizedProb))
  let green : ℤ := 255
  let blue := jsRound (255 * (1 - normalizedProb))
  (red, green, blue)

/-- How `SudokuBoard.jsx` renders one cell: either the single fixed value,
or the list of candidate entries in sorted order. -/
inductive CellView where
  | fixedView (v : Nat)
  | possView (entries : List (Nat × Nat))
deriving DecidableEq

/-- Discriminator: does a view show a fixed value? -/
def CellView.isFixedView : CellView → Bool
  | .fixedView _ => true
  | .possView _ => false

/-- The cell rendering of `SudokuBoard.jsx`: `isFixed = cell.value !==
undefined`; a fixed cell renders `cell.value`, otherwise every entry of
`sortPossibilities(cell.possibilities)` is rendered as a candidate. -/
def renderCell (cell : ClientCell) : CellView :=
  match cell.value with
  | some v => .fixedView v
  | none => .possView (sortPossibilities cell.possibilities)

/-- C10: For every possibilities mapping whose keys are distinct (as the
keys of a JS object always are), `sortPossibilities` returns exactly the
entries of the input, probabilities preserved (a permutation), in strictly
ascending order of candidate value. -/
theorem sortPossibilities_perm_and_sorted (poss : List (Nat × Nat))
    (hkeys : (poss.map Prod.fst).Nodup) :
    (sortPossibilities poss).Perm poss ∧
      (sortPossibilities poss).Pairwise (fun a b => a.1 < b.1) := by
  have hperm : (sortPossibilities poss).Perm poss :=
    List.perm_insertionSort byKey poss
  refine ⟨hperm, ?_⟩
  have hsorted : (sortPossibilities poss).Pairwise byKey :=
    List.sorted_insertionSort byKey poss
  have hnodup : ((sortPossibilities poss).map Prod.fst).Nodup :=
    (hperm.map Prod.fst).nodup_iff.mpr hkeys
  have hne : (sortPossibilities poss).Pairwise (fun a b => a.1 ≠ b.1) :=
    (List.pairwise_map).mp hnodup
  exact (hsorted.and hne).imp fun h => lt_of_le_of_ne h.1 h.2

/-- Witness for C10 at a concrete mapping with out-of-order distinct keys. -/
theorem sortPossibilities_perm_and_sorted_witness :
    (([(7, 30), (2, 50), (9, 20)].map Prod.fst).Nodup : Prop) ∧
      (sortPossibilities [(7, 30), (2, 50), (9, 20)]).Perm
          [(7, 30), (2, 50), (9, 20)] ∧
        (sortPossibilities [(7, 30), (2, 50), (9, 20)]).Pairwise
          (fun a b => a.1 < b.1) :=
  ⟨by decide, sortPossibilities_perm_and_sorted [(7, 30), (2, 50), (9, 20)] (by decide)⟩

/-- C6: the color mapping sends probability 0 to white `rgb(255,255,255)`,
probability 100 to green `rgb(0,255,0)`, and its red and blue channels are
monotonically non-increasing in the probability. -/
theorem probability_color_endpoints_and_monotone :
    getProbabilityColor 0 = (255, 255, 255) ∧
      getProbabilityColor 100 = (0, 255, 0) ∧
        ∀ p q : ℚ, p ≤ q →
          (getProbabilityColor q).1 ≤ (getProbabilityColor p).1 ∧
            (getProbabilityColor q).2.2 ≤ (getProbabilityColor p).2.2 := by
  refine ⟨?_, ?_, ?_⟩
  · show (⌊(255 : ℚ) * (1 - 0 / 100) + 1 / 2⌋, (255 : ℤ),
        ⌊(255 : ℚ) * (1 - 0 / 100) + 1 / 2⌋) = (255, 255, 255)
    norm_num
  · show (⌊(255 : ℚ) * (1 - 100 / 100) + 1 / 2⌋, (255 : ℤ),
        ⌊(255 : ℚ) * (1 - 100 / 100) + 1 / 2⌋) = (0, 255, 0)
    norm_num
  · intro p q hpq
    have h : (255 : ℚ) * (1 - q / 100) + 1 / 2 ≤ 255 * (1 - p / 100) + 1 / 2 := by
      linarith
    exact ⟨Int.floor_le_floor h, Int.floor_le_floor h⟩

/-- Witness for C6 at the concrete pair of probabilities 30 ≤ 70. -/
theorem probability_color_monotone_witness :
    (getProbabilityColor 70).1 ≤ (getProbabilityColor 30).1 :=
  (probability_color_endpoints_and_monotone.2.2 30 70 (by norm_num)).1

/-- C5: a cell is rendered as Fixed exactly when its `value` field is
defined (then it shows that value), and otherwise it is rendered as the
candidate entries of its possibilities mapping (all of them, probabilities
preserved); the two renderings are mutually exclusive by construction. -/
theorem render_cell_fixed_iff_value_defined (cell : ClientCell) :
    (renderCell cell).isFixedView = cell.value.isSome ∧
      (∀ v, cell.value = some v → renderCell cell = .fixedView v) ∧
        (cell.value = none →
          ∃ es, renderCell cell = .possView es ∧ es.Perm cell.possibilities) := by
  refine ⟨?_, ?_, ?_⟩
  · cases h : cell.value <;> simp [renderCell, h, CellView.isFixedView]
  · intro v hv
    simp [renderCell, hv]
  · intro hv
    exact ⟨sortPossibilities cell.possibilities, by simp [renderCell, hv],
      List.perm_insertionSort byKey cell.possibilities⟩

/-- Witness for C5 on a concrete superposition cell and on a fixed cell. -/
theorem render_cell_fixed_iff_value_defined_witness :
    (renderCell ⟨some 4, []⟩ = .fixedView 4) ∧
      ∃ es, renderCell ⟨none, [(3, 40), (8, 60)]⟩ = .possView es ∧
        es.Perm [(3, 40), (8, 60)] :=
  ⟨(render_cell_fixed_iff_value_defined ⟨some 4, []⟩).2.1 4 rfl,
    (render_cell_fixed_iff_value_defined ⟨none, [(3, 40), (8, 60)]⟩).2.2 rfl⟩

/-- HTTP method of a frontend fetch call. -/
inductive HttpMethod where
  | get
  | post
deriving DecidableEq

/-- A JSON value, for the bodies the frontend serializes. -/
inductive Json where
  | num (n : Nat)
  | str (s : String)
  | arr (xs : List Json)
  | obj (fields : List (String × Json))

/-- A fetch call the frontend issues: method, URL, optional JSON body. -/
structure HttpRequest where
  method : HttpMethod
  url : String
  body : Option Json

/-- The `/assign` fetch of `assignCellValues` in `App.jsx`: a POST whose
JSON body is `JSON.stringify({ row, col, candidates })` — exactly the
three fields, in that order. -/
def assignRequest (row col : Nat) (candidates : List Nat) : HttpRequest :=
  { method := .post
    url := "http://localhost:8000/assign"
    body := some (.obj [("row", .num row), ("col", .num col),
      ("candidates", .arr (candidates.map .num))]) }

/-- The `/reset` fetch of `resetBoard` in `App.jsx`: a POST to the URL
template literal carrying the difficulty as a query parameter. -/
def resetRequest (difficulty : String) : HttpRequest :=
  { method := .post
    url := "http://localhost:8000/reset?difficulty=" ++ difficulty
    body := none }

/-- The `/board` fetch of `fetchBoard` in `App.jsx`. -/
def boardRequest : HttpRequest :=
  { method := .get
    url := "http://localhost:8000/board"
    body := none }

/-- The React state of `App.jsx` that the claims concern: `board`,
`selectedCell`, `message`, `difficulty`. -/
structure ClientState where
  board : ClientBoard
  selectedCell : Option (Nat × Nat)
  message : String
  difficulty : String

/-- `validNumbers.join(', ')` on a list of numbers. -/
def joinComma (ns : List Nat) : String :=
  String.intercalate ", " (ns.map toString)

/-- Lines 110-111 of `App.jsx`: `currentPossibilities` is
`Object.keys(cell.possibilities).map(Number)` and `validNumbers` keeps
exactly the selected numbers contained in it, in selection order. -/
def validSelection (cell : ClientCell) (numbers : List Nat) : List Nat :=
  let currentPossibilities := cell.possibilities.map Prod.fst
  numbers.filter fun n => currentPossibilities.contains n

theorem mem_validSelection {cell : ClientCell} {numbers : List Nat} {n : Nat}
    (h : n ∈ validSelection cell numbers) :
    n ∈ cell.possibilities.map Prod.fst := by
  have hmem := List.mem_filter.mp h
  simpa using hmem.2

/-- `handleNumberSelection` from `App.jsx` as a pure transition: given the
selected numbers it returns the new client state together with the
`/assign` request it passes to `assignCellValues`, or `none` when no
request is sent.  An out-of-range selected cell would throw a TypeError in
JS (never reached: `handleCellClick` only selects rendered cells); it is
modelled as no-op.  The filter keeps exactly the selected numbers present
in `Object.keys(cell.possibilities)`; the request is sent whenever at
least one selected number survives the filter. -/
def handleNumberSelection (st : ClientState) (numbers : List Nat) :
    ClientState × Option HttpRequest :=
  match st.selectedCell with
  | none => ({ st with message := "Please select a cell first!" }, none)
  | some (row, col) =>
    match cellAt st.board row col with
    | none => (st, none)
    | some cell =>
      match cell.value with
      | some _ =>
        ({ st with message := "Cell (" ++ toString row ++ ", " ++ toString col
            ++ ") is already fixed and cannot be changed." }, none)
      | none =>
        let validNumbers := validSelection cell numbers
        if validNumbers.isEmpty then
          ({ st with message := "Selected numbers are not valid for this cell!" }, none)
        else
          let st' :=
            if validNumbers.length ≠ numbers.length then
              { st with message := "Only " ++ joinComma validNumbers
                  ++ " are valid for this cell." }
            else st
          (st', some (assignRequest row col validNumbers))

/-- `handleAssign` from `InfoPanel.jsx`: an empty selection is blocked
with an alert and no call; otherwise the selection is forwarded to
`onNumberSelection = handleNumberSelection`. -/
def handleAssign (selectedNumbers : List Nat) (st : ClientState) :
    ClientState × Option HttpRequest :=
  if selectedNumbers.isEmpty then (st, none)
  else handleNumberSelection st selectedNumbers

/-- The JSON of a successful or failed `/assign` response as read by
`assignCellValues` (`data.success`, `data.board`, `data.message`,
`data.detail`). -/
structure AssignResponse where
  success : Bool
  board : ClientBoard
  message : String
  detail : String

/-- The response branch of `assignCellValues` in `App.jsx`: on
`data.success` the board is replaced by `data.board` and the message by
`data.message`; otherwise only the message changes, displaying
`data.detail` behind the fixed prefix. -/
def onAssignResponse (st : ClientState) (resp : AssignResponse) : ClientState :=
  if resp.success then
    { st with board := resp.board, message := resp.message }
  else
    { st with message := "Error assigning values: " ++ resp.detail }

/-- The JSON of a `/reset` response as read by `resetBoard`
(`data.success`, `data.message`). -/
structure ResetResponse where
  success : Bool
  message : String

/-- The response branch of `resetBoard` in `App.jsx` for a chosen
difficulty: on `data.success` it fires `fetchBoard()` (a `GET /board`),
stores the new difficulty and reports the reset; otherwise it only sets an
error message displaying `data.message`.  The follow-up requests are
returned alongside the new state. -/
def onResetResponse (st : ClientState) (newDifficulty : String)
    (resp : ResetResponse) : ClientState × List HttpRequest :=
  if resp.success then
    ({ st with
        difficulty := newDifficulty
        message := "Board reset to " ++ newDifficulty ++ " difficulty!" },
      [boardRequest])
  else
    ({ st with message := "Error resetting board: " ++ resp.message }, [])

/-- Concrete client state for exercising the selection filter: one
superposition cell at (0, 0) with candidates 1 and 2, and that cell
selected. -/
def stC1 : ClientState :=
  { board := [[{ value := none, possibilities := [(1, 50), (2, 50)] }]]
    selectedCell := some (0, 0)
    message := ""
    difficulty := "medium" }

/-- C1 counterexample: the selection `[1, 9]` contains 9, which is not in
the cell's candidate set {1, 2}, yet `handleNumberSelection` does send an
`/assign` request, carrying the reduced candidate list `[1]`.  The filter
only blocks a selection in which no number is valid. -/
theorem partial_invalid_selection_still_assigns :
    (handleNumberSelection stC1 [1, 9]).2 = some (assignRequest 0 0 [1]) ∧
      ¬ (9 ∈ ([(1, 50), (2, 50)] : List (Nat × Nat)).map Prod.fst) ∧
      [1] ≠ [1, 9] :=
  ⟨rfl, by decide, by decide⟩

/-- C1 (amended): when the selected cell is in superposition, the handler
filters the selection against the cell's candidate set; if at least one
selected number is valid it sends `/assign` with exactly the reduced list
(setting an informational message when numbers were dropped), and it
blocks the request only when no selected number is valid. -/
theorem filter_sends_reduced_list_iff_some_valid (st : ClientState)
    (numbers : List Nat) (r c : Nat) (cell : ClientCell)
    (hsel : st.selectedCell = some (r, c))
    (hcell : cellAt st.board r c = some cell)
    (hval : cell.value = none) :
    (handleNumberSelection st numbers).2 =
      if (validSelection cell numbers).isEmpty then
        none
      else
        some (assignRequest r c (validSelection cell numbers)) := by
  simp only [handleNumberSelection, hsel, hcell, hval]
  by_cases hv : (validSelection cell numbers).isEmpty = true
  · rw [if_pos hv, if_pos hv]
  · rw [if_neg hv, if_neg hv]

/-- Witness for the amended C1 at the concrete state `stC1` and the mixed
selection `[1, 9]`. -/
theorem filter_sends_reduced_list_witness :
    stC1.selectedCell = some (0, 0) ∧
      cellAt stC1.board 0 0 = some ⟨none, [(1, 50), (2, 50)]⟩ ∧
      (handleNumberSelection stC1 [1, 9]).2 =
        (if (validSelection ⟨none, [(1, 50), (2, 50)]⟩ [1, 9]).isEmpty then
          none
        else
          some (assignRequest 0 0
            (validSelection ⟨none, [(1, 50), (2, 50)]⟩ [1, 9]))) :=
  ⟨rfl, rfl, filter_sends_reduced_list_iff_some_valid stC1 [1, 9] 0 0
    ⟨none, [(1, 50), (2, 50)]⟩ rfl rfl rfl⟩

/-- C8: selecting numbers while the selected cell is Fixed sends no
`/assign` request and changes nothing but the message, which reports the
cell as already fixed. -/
theorem fixed_cell_selection_no_request (st : ClientState) (numbers : List Nat)
    (r c : Nat) (cell : ClientCell) (v : Nat)
    (hsel : st.selectedCell = some (r, c))
    (hcell : cellAt st.board r c = some cell)
    (hfixed : cell.value = some v) :
    (handleNumberSelection st numbers).2 = none ∧
      (handleNumberSelection st numbers).1.board = st.board ∧
      (handleNumberSelection st numbers).1.selectedCell = st.selectedCell ∧
      (handleNumberSelection st numbers).1.difficulty = st.difficulty ∧
      (handleNumberSelection st numbers).1.message =
        "Cell (" ++ toString r ++ ", " ++ toString c
          ++ ") is already fixed and cannot be changed." := by
  simp [handleNumberSelection, hsel, hcell, hfixed]

/-- Concrete client state with the Fixed cell (0, 0) selected. -/
def stFixed : ClientState :=
  { board := [[{ value := some 5, possibilities := [] }]]
    selectedCell := some (0, 0)
    message := ""
    difficulty := "easy" }

/-- Witness for C8 at the concrete fixed-cell state. -/
theorem fixed_cell_selection_no_request_witness :
    (handleNumberSelection stFixed [1, 2]).2 = none ∧
      (handleNumberSelection stFixed [1, 2]).1.board = stFixed.board :=
  ⟨(fixed_cell_selection_no_request stFixed [1, 2] 0 0 ⟨some 5, []⟩ 5 rfl rfl rfl).1,
    (fixed_cell_selection_no_request stFixed [1, 2] 0 0 ⟨some 5, []⟩ 5 rfl rfl rfl).2.1⟩

/-- C9: every `/assign` request that reaches the network carries a
non-empty candidate list all of whose elements are candidates of the
selected superposition cell: `handleAssign` blocks empty selections, and
`handleNumberSelection` blocks selections with no valid number. -/
theorem sent_requests_have_valid_nonempty_candidates
    (selectedNumbers : List Nat) (st : ClientState) (req : HttpRequest)
    (h : (handleAssign selectedNumbers st).2 = some req) :
    ∃ r c cell, st.selectedCell = some (r, c) ∧
      cellAt st.board r c = some cell ∧ cell.value = none ∧
      ∃ vn, req = assignRequest r c vn ∧ vn ≠ [] ∧
        ∀ n ∈ vn, n ∈ cell.possibilities.map Prod.fst := by
  by_cases hempty : selectedNumbers.isEmpty = true
  · simp [handleAssign, hempty] at h
  · rw [handleAssign, if_neg hempty] at h
    rcases hsel : st.selectedCell with _ | ⟨r, c⟩
    · simp [handleNumberSelection, hsel] at h
    · rcases hcell : cellAt st.board r c with _ | cell
      · simp [handleNumberSelection, hsel, hcell] at h
      · rcases hval : cell.value with _ | v
        · by_cases hv : (validSelection cell selectedNumbers).isEmpty = true
          · simp only [handleNumberSelection, hsel, hcell, hval] at h
            rw [if_pos hv] at h
            simp at h
          · simp only [handleNumberSelection, hsel, hcell, hval] at h
            rw [if_neg hv] at h
            refine ⟨r, c, cell, rfl, hcell, hval,
              validSelection cell selectedNumbers, ?_, ?_, ?_⟩
            · exact (Option.some_inj.mp h).symm
            · intro hnil
              rw [hnil] at hv
              exact hv rfl
            · exact fun n hn => mem_validSelection hn
        · simp [handleNumberSelection, hsel, hcell, hval] at h

/-- Concrete client state for exercising a successful assignment: cell
(0, 0) in superposition over {2, 7}. -/
def stC9 : ClientState :=
  { board := [[{ value := none, possibilities := [(2, 60), (7, 40)] }]]
    selectedCell := some (0, 0)
    message := ""
    difficulty := "medium" }

/-- Witness for C9: the selection `[7, 2]` produces a request whose
candidate list is non-empty and valid for the cell. -/
theorem sent_requests_have_valid_nonempty_candidates_witness :
    (handleAssign [7, 2] stC9).2 = some (assignRequest 0 0 [7, 2]) ∧
      ∃ r c cell, stC9.selectedCell = some (r, c) ∧
        cellAt stC9.board r c = some cell ∧ cell.value = none ∧
        ∃ vn, assignRequest 0 0 [7, 2] = assignRequest r c vn ∧ vn ≠ [] ∧
          ∀ n ∈ vn, n ∈ cell.possibilities.map Prod.fst :=
  ⟨rfl, sent_requests_have_valid_nonempty_candidates [7, 2] stC9
    (assignRequest 0 0 [7, 2]) rfl⟩

/-- C4: every assignment request the client issues is a POST to `/assign`
whose JSON body consists of exactly the fields `row`, `col` and
`candidates`, with the selected cell's coordinates and the validated
number list. -/
theorem assign_request_shape (st : ClientState) (numbers : List Nat)
    (req : HttpRequest)
    (h : (handleNumberSelection st numbers).2 = some req) :
    ∃ r c cell, st.selectedCell = some (r, c) ∧
      cellAt st.board r c = some cell ∧
      req.method = HttpMethod.post ∧
      req.url = "http://localhost:8000/assign" ∧
      req.body = some (Json.obj [("row", Json.num r), ("col", Json.num c),
        ("candidates", Json.arr ((validSelection cell numbers).map Json.num))]) := by
  rcases hsel : st.selectedCell with _ | ⟨r, c⟩
  · simp [handleNumberSelection, hsel] at h
  · rcases hcell : cellAt st.board r c with _ | cell
    · simp [handleNumberSelection, hsel, hcell] at h
    · rcases hval : cell.value with _ | v
      · by_cases hv : (validSelection cell numbers).isEmpty = true
        · simp only [handleNumberSelection, hsel, hcell, hval] at h
          rw [if_pos hv] at h
          simp at h
        · simp only [handleNumberSelection, hsel, hcell, hval] at h
          rw [if_neg hv] at h
          have hreq : assignRequest r c (validSelection cell numbers) = req :=
            Option.some_inj.mp h
          exact ⟨r, c, cell, rfl, hcell, by rw [← hreq]; rfl,
            by rw [← hreq]; rfl, by rw [← hreq]; rfl⟩
      · simp [handleNumberSelection, hsel, hcell, hval] at h

/-- Concrete state for exercising the request shape: cell (0, 0) in
superposition over {3, 4}, selected. -/
def stC4 : ClientState :=
  { board := [[{ value := none, possibilities := [(3, 50), (4, 50)] }]]
    selectedCell := some (0, 0)
    message := ""
    difficulty := "medium" }

/-- Witness for C4 at the concrete selection `[4]`. -/
theorem assign_request_shape_witness :
    (handleNumberSelection stC4 [4]).2 = some (assignRequest 0 0 [4]) ∧
      ∃ r c cell, stC4.selectedCell = some (r, c) ∧
        cellAt stC4.board r c = some cell ∧
        (assignRequest 0 0 [4]).method = HttpMethod.post ∧
        (assignRequest 0 0 [4]).url = "http://localhost:8000/assign" ∧
        (assignRequest 0 0 [4]).body = some (Json.obj [("row", Json.num r),
          ("col", Json.num c),
          ("candidates", Json.arr ((validSelection cell [4]).map Json.num))]) :=
  ⟨rfl, assign_request_shape stC4 [4] (assignRequest 0 0 [4]) rfl⟩

/-- C3: the `/assign` response handler replaces the board with
`data.board` and the message with `data.message` when `data.success`
holds, touching nothing else; otherwise it displays `data.detail` (behind
the fixed error prefix) and leaves the board untouched. -/
theorem assign_response_updates_board_on_success (st : ClientState)
    (resp : AssignResponse) :
    (resp.success = true →
      (onAssignResponse st resp).board = resp.board ∧
        (onAssignResponse st resp).message = resp.message ∧
        (onAssignResponse st resp).selectedCell = st.selectedCell ∧
        (onAssignResponse st resp).difficulty = st.difficulty) ∧
      (resp.success = false →
        (onAssignResponse st resp).board = st.board ∧
          (onAssignResponse st resp).message =
            "Error assigning values: " ++ resp.detail) := by
  constructor <;> intro h <;> simp [onAssignResponse, h]

/-- Neutral concrete client state. -/
def stDemo : ClientState :=
  { board := []
    selectedCell := none
    message := ""
    difficulty := "medium" }

/-- Witness for C3: a concrete successful response replaces the board and
a concrete failed response leaves it unchanged. -/
theorem assign_response_witness :
    (onAssignResponse stDemo ⟨true, [[⟨some 1, []⟩]], "ok", ""⟩).board
        = [[⟨some 1, []⟩]] ∧
      (onAssignResponse stDemo ⟨false, [], "", "Conflict"⟩).board = stDemo.board :=
  ⟨((assign_response_updates_board_on_success stDemo
      ⟨true, [[⟨some 1, []⟩]], "ok", ""⟩).1 rfl).1,
    ((assign_response_updates_board_on_success stDemo
      ⟨false, [], "", "Conflict"⟩).2 rfl).1⟩

/-- C7: a reset is a POST to `/reset` with the chosen difficulty as query
parameter; a successful response triggers a `GET /board` fetch and stores
the chosen difficulty, while a failed response displays `data.message`
(behind the fixed error prefix) and leaves the difficulty unchanged with
no board fetch. -/
theorem reset_flow (st : ClientState) (newDifficulty : String)
    (resp : ResetResponse) :
    (resetRequest newDifficulty).method = HttpMethod.post ∧
      (resetRequest newDifficulty).url =
        "http://localhost:8000/reset?difficulty=" ++ newDifficulty ∧
      boardRequest.method = HttpMethod.get ∧
      boardRequest.url = "http://localhost:8000/board" ∧
      (resp.success = true →
        (onResetResponse st newDifficulty resp).1.difficulty = newDifficulty ∧
          (onResetResponse st newDifficulty resp).2 = [boardRequest]) ∧
      (resp.success = false →
        (onResetResponse st newDifficulty resp).1.difficulty = st.difficulty ∧
          (onResetResponse st newDifficulty resp).1.board = st.board ∧
          (onResetResponse st newDifficulty resp).1.message =
            "Error resetting board: " ++ resp.message ∧
          (onResetResponse st newDifficulty resp).2 = []) := by
  refine ⟨rfl, rfl, rfl, rfl, ?_, ?_⟩ <;> intro h <;> simp [onResetResponse, h]

/-- Witness for C7: a concrete successful reset to "hard" updates the
stored difficulty and fetches the board; a failed one does not. -/
theorem reset_flow_witness :
    ((onResetResponse stDemo "hard" ⟨true, ""⟩).1.difficulty = "hard" ∧
        (onResetResponse stDemo "hard" ⟨true, ""⟩).2 = [boardRequest]) ∧
      (onResetResponse stDemo "easy" ⟨false, "boom"⟩).1.difficulty
        = stDemo.difficulty :=
  ⟨(reset_flow stDemo "hard" ⟨true, ""⟩).2.2.2.2.1 rfl,
    ((reset_flow stDemo "easy" ⟨false, "boom"⟩).2.2.2.2.2 rfl).1⟩

/-- Modelled from the spec: the backend Board State Store cell (absent
from the repository) — either Fixed with a value, or in Superposition
with a non-empty weighted candidate set. -/
inductive ECell where
  | fixed (v : Nat)
  | superpos (poss : List (Nat × Nat))
deriving DecidableEq

/-- Modelled from the spec: the backend 9×9 board. -/
abbrev EBoard := List (List ECell)

/-- Modelled from the spec: the error taxonomy of §7 relevant to
`assign` (InvalidRequest, AlreadyFixed, Conflict), plus a fuel-exhaustion
marker for the bounded propagation loop. -/
inductive EngineError where
  | invalidRequest
  | alreadyFixed
  | conflict
  | outOfFuel
deriving DecidableEq

/-- Modelled from the spec: board lookup at (row, col). -/
def cellAtE (b : EBoard) (r c : Nat) : Option ECell :=
  (b.get? r).bind fun row => row.get? c

/-- Modelled from the spec: board update at (row, col) on the working copy. -/
def setCellE (b : EBoard) (r c : Nat) (cell : ECell) : EBoard :=
  match b.get? r with
  | none => b
  | some row => b.set r (row.set c cell)

/-- All 81 coordinates in row-major order (the deterministic propagation
order the spec requires). -/
def allCoords : List (Nat × Nat) :=
  (List.range 9).flatMap fun r => (List.range 9).map fun c => (r, c)

/-- Modelled from the spec: two distinct cells are peers when they share a
row, a column, or a 3×3 block. -/
def isPeer (r c r2 c2 : Nat) : Bool :=
  (!(r == r2 && c == c2)) &&
    ((r == r2) || (c == c2) || ((r / 3 == r2 / 3) && (c / 3 == c2 / 3)))

/-- Modelled from the spec: the peers of a cell, scanned row-major. -/
def peersOf (r c : Nat) : List (Nat × Nat) :=
  allCoords.filter fun p => isPeer r c p.1 p.2

/-- Modelled from the spec (§4.3): the open weighting policy instantiated
with its suggested default — uniform probabilities scaled to 100,
recomputed whenever a candidate set shrinks. -/
def renormalize (ps : List (Nat × Nat)) : List (Nat × Nat) :=
  ps.map fun p => (p.1, 100 / ps.length)

/-- Modelled from the spec: remove a value from a candidate set. -/
def removeCand (v : Nat) (poss : List (Nat × Nat)) : List (Nat × Nat) :=
  poss.filter fun p => p.1 != v

/-- Modelled from the spec (§4.2): the effect of a newly fixed value `v`
on one peer.  A Fixed peer is untouched; a Superposition peer containing
`v` has it removed — an emptied set is a Conflict, a singleton
auto-collapses (reported back for transitive propagation), anything else
is renormalized. -/
def peerStep (v : Nat) : ECell → Except EngineError (ECell × Option Nat)
  | .fixed w => .ok (.fixed w, none)
  | .superpos poss =>
    if (poss.map Prod.fst).contains v then
      match removeCand v poss with
      | [] => .error .conflict
      | [(w, _)] => .ok (.fixed w, some w)
      | ps => .ok (.superpos (renormalize ps), none)
    else .ok (.superpos poss, none)

/-- Modelled from the spec: apply `peerStep` to each peer in order on the
working copy, collecting the coordinates that auto-collapsed; the first
Conflict aborts. -/
def processPeers (v : Nat) : EBoard → List (Nat × Nat) → List (Nat × Nat) →
    Except EngineError (EBoard × List (Nat × Nat))
  | b, [], acc => .ok (b, acc)
  | b, (r, c) :: rest, acc =>
    match cellAtE b r c with
    | none => processPeers v b rest acc
    | some cell =>
      match peerStep v cell with
      | .error e => .error e
      | .ok (cell2, newFixed) =>
        processPeers v (setCellE b r c cell2) rest
          (match newFixed with
            | some _ => acc ++ [(r, c)]
            | none => acc)

/-- Modelled from the spec: breadth-first propagation over the work queue
of newly fixed cells, until fixed point, Conflict, or fuel exhaustion
(propagation strictly shrinks candidate sets, so 730 > 81·9 steps always
suffice on a 9×9 board). -/
def propagate : Nat → EBoard → List (Nat × Nat) → Except EngineError EBoard
  | _, b, [] => .ok b
  | 0, _, _ :: _ => .error .outOfFuel
  | fuel + 1, b, (r, c) :: queue =>
    match cellAtE b r c with
    | some (.fixed v) =>
      match processPeers v b (peersOf r c) [] with
      | .error e => .error e
      | .ok (b2, newly) => propagate fuel b2 (queue ++ newly)
    | _ => propagate fuel b queue

/-- Modelled from the spec (§4.2): `assign(board, row, col, values)`.
Preconditions: the target cell is not Fixed and every value is currently a
candidate.  A singleton fixes the cell and propagates; a larger set
restricts the Superposition with renormalized probabilities.  All updates
happen on a working copy. -/
def engineAssign (b : EBoard) (r c : Nat) (vs : List Nat) :
    Except EngineError EBoard :=
  match cellAtE b r c with
  | none => .error .invalidRequest
  | some (.fixed _) => .error .alreadyFixed
  | some (.superpos poss) =>
    if vs.isEmpty then .error .invalidRequest
    else if vs.all fun w => (poss.map Prod.fst).contains w then
      match vs with
      | [v] => propagate 730 (setCellE b r c (.fixed v)) [(r, c)]
      | _ => .ok (setCellE b r c
          (.superpos (renormalize (poss.filter fun p => vs.contains p.1))))
    else .error .invalidRequest

/-- Modelled from the spec (§4.4): the Board State Store commits the
working copy only on success; on any failure the stored board is the old
board, paired with the error. -/
def storeApply (b : EBoard) (r c : Nat) (vs : List Nat) :
    EBoard × Option EngineError :=
  match engineAssign b r c vs with
  | .ok b2 => (b2, none)
  | .error e => (b, some e)

/-- C2: whenever an assign operation fails — in particular whenever
propagation empties some peer's candidate set, which `peerStep` turns into
exactly a Conflict error — the stored board after the operation is
identical to the stored board before it. -/
theorem assign_conflict_preserves_board :
    (∀ (b : EBoard) (r c : Nat) (vs : List Nat) (b2 : EBoard) (e : EngineError),
        storeApply b r c vs = (b2, some e) → b2 = b) ∧
      ∀ (v : Nat) (poss : List (Nat × Nat)),
        (poss.map Prod.fst).contains v = true → removeCand v poss = [] →
          peerStep v (.superpos poss) = .error .conflict := by
  constructor
  · intro b r c vs b2 e h
    unfold storeApply at h
    cases hassign : engineAssign b r c vs <;> rw [hassign] at h <;> simp at h
    exact h.1.symm
  · intro v poss hc hrm
    simp only [peerStep]
    rw [if_pos hc, hrm]

/-- A filler row of fixed cells for the concrete conflict board. -/
def fixedRow : List ECell := List.replicate 9 (ECell.fixed 1)

/-- A concrete board where fixing (0, 0) to 5 empties the candidate set of
its row peer (0, 1), whose only candidate is 5. -/
def demoBoard : EBoard :=
  ([ECell.superpos [(5, 50), (6, 50)], ECell.superpos [(5, 100)]]
      ++ List.replicate 7 (ECell.fixed 1)) :: List.replicate 8 fixedRow

/-- Witness for C2: assigning `[5]` at (0, 0) on `demoBoard` fails with
Conflict and the stored board is unchanged. -/
theorem assign_conflict_preserves_board_witness :
    storeApply demoBoard 0 0 [5] = (demoBoard, some EngineError.conflict) ∧
      (storeApply demoBoard 0 0 [5]).1 = demoBoard :=
  ⟨rfl, assign_conflict_preserves_board.1 demoBoard 0 0 [5] demoBoard
    EngineError.conflict rfl⟩
